import Mathlib

/-!
Verification development for the DSD price book manager
(`dsd/utils/pricing.py`, `dsd/models.py`, `dsd/views.py`).

Monetary quantities are modelled as exact rationals (`ℚ`).  The source uses
Python `Decimal` with 28 significant digits; for the finite-decimal money and
margin values the system manipulates, `Decimal` arithmetic coincides with
exact rational arithmetic at every operation that feeds a comparison or a
truncation, so the rational model is faithful.  Dates and timestamps are
modelled as integers; `None` becomes `Option.none`.
-/

namespace DSD

/-- Round-half-even (banker's rounding) of a rational to an integer.  This is
the default rounding mode of Python `Decimal.quantize`. -/
def roundHalfEven (x : ℚ) : ℤ :=
  if x - ⌊x⌋ < 1/2 then ⌊x⌋
  else if 1/2 < x - ⌊x⌋ then ⌊x⌋ + 1
  else if ⌊x⌋ % 2 = 0 then ⌊x⌋ else ⌊x⌋ + 1

/-- Quantization to 4 decimal places, half-even — `x.quantize(Decimal('0.0001'))`. -/
def quantize4 (x : ℚ) : ℚ := (roundHalfEven (x * 10000) : ℚ) / 10000

/-- Python truthiness of an optional numeric value: `None` and `0` are falsy,
every other number is truthy. -/
def truthy : Option ℚ → Bool
  | none => false
  | some v => v != 0

/-- `suggest_retail(new_unit_cost, current_margin)` from `dsd/utils/pricing.py`
(lines 45–95).  Returns `none` when the margin is outside `(0,1)` or the unit
cost is non-positive.  Otherwise it computes the theoretical retail
`unit_cost / (1 - margin)`, truncates it to whole cents (`int(theoretical*100)`
truncates toward zero; the value is positive here, so it is the floor), and
rounds up to the next cent value whose last digit is 8.  The final
`if suggested_cents < theoretical_cents: suggested_cents += 10` guard of the
source is reproduced verbatim. -/
def suggest_retail (new_unit_cost current_margin : ℚ) : Option ℚ :=
  if current_margin ≤ 0 ∨ 1 ≤ current_margin then none
  else if new_unit_cost ≤ 0 then none
  else
    let theoretical : ℚ := new_unit_cost / (1 - current_margin)
    let theoretical_cents : ℤ := ⌊theoretical * 100⌋
    let remainder : ℤ := theoretical_cents % 10
    let s1 : ℤ :=
      if remainder ≤ 8 then theoretical_cents - remainder + 8
      else theoretical_cents - remainder + 18
    let s2 : ℤ := if s1 < theoretical_cents then s1 + 10 else s1
    some ((s2 : ℚ) / 100)

/-- `calculate_margin(retail_price, unit_cost)` from `dsd/utils/pricing.py`
(lines 98–109).  `not retail_price or not unit_cost` is Python truthiness:
zero or absent inputs give `None`; then non-positive retail gives `None`;
otherwise `(retail - cost) / retail` quantized to 4 decimal places. -/
def calculate_margin (retail_price unit_cost : ℚ) : Option ℚ :=
  if retail_price = 0 ∨ unit_cost = 0 then none
  else if retail_price ≤ 0 then none
  else some (quantize4 ((retail_price - unit_cost) / retail_price))

-- ============================================================
-- Helper lemmas about the pricing math
-- ============================================================

theorem roundHalfEven_ge_floor (x : ℚ) : ⌊x⌋ ≤ roundHalfEven x := by
  unfold roundHalfEven
  split
  · exact le_refl _
  · split
    · exact Int.le_add_one (le_refl _)
    · split
      · exact le_refl _
      · exact Int.le_add_one (le_refl _)

/-- Structural description of `suggest_retail` on valid inputs: it returns a
whole number of cents `s` with `⌊100·theoretical⌋ ≤ s ≤ ⌊100·theoretical⌋ + 9`
and `s % 10 = 8`. -/
theorem suggest_retail_spec (u m : ℚ) (hu : 0 < u) (hm0 : 0 < m) (hm1 : m < 1) :
    ∃ s : ℤ, suggest_retail u m = some ((s : ℚ) / 100) ∧
      ⌊u / (1 - m) * 100⌋ ≤ s ∧ s ≤ ⌊u / (1 - m) * 100⌋ + 9 ∧ s % 10 = 8 := by
  unfold suggest_retail
  have h1 : ¬(m ≤ 0 ∨ 1 ≤ m) := by push_neg; exact ⟨hm0, hm1⟩
  have h2 : ¬(u ≤ 0) := not_le.mpr hu
  rw [if_neg h1, if_neg h2]
  set t : ℤ := ⌊u / (1 - m) * 100⌋ with ht
  have hr0 : 0 ≤ t % 10 := Int.emod_nonneg t (by norm_num)
  have hr10 : t % 10 < 10 := Int.emod_lt_of_pos t (by norm_num)
  by_cases hc : t % 10 ≤ 8
  · refine ⟨t - t % 10 + 8, ?_, by omega, by omega, by omega⟩
    simp only [hc, if_true, ht]
    rw [if_neg (by omega)]
  · refine ⟨t - t % 10 + 18, ?_, by omega, by omega, by omega⟩
    simp only [hc, if_false, ht]
    rw [if_neg (by omega)]

/-- On valid inputs `suggest_retail` is defined. -/
theorem suggest_retail_isSome (u m : ℚ) (hu : 0 < u) (hm0 : 0 < m) (hm1 : m < 1) :
    (suggest_retail u m).isSome := by
  obtain ⟨s, hs, -⟩ := suggest_retail_spec u m hu hm0 hm1
  rw [hs]; rfl

-- ============================================================
-- Data model (dsd/models.py)
-- ============================================================

/-- `PendingCostChange.STATUS_CHOICES`. -/
inductive Status
  | pending
  | approved
  | rejected
  | applied
deriving DecidableEq

/-- `SOURCE_CHOICES` (shared shape between `PendingCostChange` and
`ChangeHistory`; `system` only occurs on `ChangeHistory`). -/
inductive ChangeSource
  | manual
  | fileImport
  | portal
  | brdataSync
  | system
deriving DecidableEq

/-- `ChangeHistory.CHANGE_TYPE_CHOICES`. -/
inductive ChangeType
  | costAndPrice
  | costOnly
  | priceOnly
deriving DecidableEq

/-- The `Vendor` model — only the fields the verified operations read. -/
structure Vendor where
  vendor_code : String
  vendor_name : String
  target_margin : ℚ
deriving DecidableEq

/-- The `Item` model — the fields the verified operations read or write.
Dates are integers, nullable columns are `Option`. -/
structure Item where
  id : Nat
  vendor_code : String
  upc : String
  brdata_item_no : Option String
  description : String
  case_pack : ℤ
  case_cost : ℚ
  allowance : ℚ
  retail_price : Option ℚ
  last_cost_change : Option ℤ
  last_price_change : Option ℤ
deriving DecidableEq

/-- `Item.net_case_cost` (models.py line 161). -/
def Item.net_case_cost (i : Item) : ℚ := i.case_cost - i.allowance

/-- `Item.unit_cost` (models.py line 165): `if self.case_pack and
self.case_pack > 0` — truthiness plus positivity collapses to `0 < case_pack`. -/
def Item.unit_cost (i : Item) : Option ℚ :=
  if 0 < i.case_pack then some (i.net_case_cost / (i.case_pack : ℚ)) else none

/-- `Item.margin` (models.py line 171): defined only when `retail_price` is
truthy and positive and `unit_cost` is defined. -/
def Item.margin (i : Item) : Option ℚ :=
  match i.retail_price, i.unit_cost with
  | some r, some u => if 0 < r then some ((r - u) / r) else none
  | _, _ => none

/-- The `PendingCostChange` model. -/
structure PendingCostChange where
  id : Nat
  item_id : Nat
  vendor_code : String
  upc : String
  new_case_cost : ℚ
  new_allowance : ℚ
  effective_date : ℤ
  suggested_retail : Option ℚ
  approved_retail : Option ℚ
  prev_case_cost : Option ℚ
  prev_allowance : Option ℚ
  prev_retail : Option ℚ
  prev_margin : Option ℚ
  status : Status
  change_source : ChangeSource
  submitted_by : Option String
  approved_by : Option String
  approved_at : Option ℤ
  applied_at : Option ℤ
  notes : Option String
deriving DecidableEq

/-- The `ChangeHistory` model — fields written by `apply_to_item`.  Columns
the `create` call does not pass keep their default `NULL`/`none`. -/
structure ChangeHistory where
  vendor_code : String
  upc : String
  change_type : ChangeType
  old_case_cost : Option ℚ
  old_allowance : Option ℚ
  new_case_cost : Option ℚ
  new_allowance : Option ℚ
  old_retail : Option ℚ
  new_retail : Option ℚ
  old_margin : Option ℚ
  new_margin : Option ℚ
  changed_by : Option String
  change_source : ChangeSource
  pending_cost_change_id : Option Nat
deriving DecidableEq

/-- The `BRDataExportLog` model. -/
structure BRDataExportLog where
  export_type : String
  vendor_code : String
  upc : String
  brdata_item_no : Option String
  new_retail : Option ℚ
  effective_date : Option ℤ
  export_status : String
  export_file : Option String
  exported_by : Option String
deriving DecidableEq

-- ============================================================
-- Workflow operations (dsd/models.py methods)
-- ============================================================

/-- `PendingCostChange.approve` (models.py lines 309–318).  Note: the method
performs no status check; it unconditionally transitions to APPROVED.
`if retail_override:` is Python truthiness on the override value. -/
def PendingCostChange.approve (c : PendingCostChange) (user : String)
    (retail_override : Option ℚ) (now : ℤ) : PendingCostChange :=
  let c1 := { c with status := Status.approved,
                     approved_by := some user,
                     approved_at := some now }
  if truthy retail_override then { c1 with approved_retail := retail_override }
  else if c1.approved_retail = none then
    { c1 with approved_retail := c1.suggested_retail }
  else c1

/-- `PendingCostChange.apply_to_item` (models.py lines 320–367).  Raising
`ValueError` is modelled as `Except.error`; on success the result carries the
updated change record, the updated item, and the created `ChangeHistory`
row.  `now` is `timezone.now()`, `today` its date. -/
def PendingCostChange.apply_to_item (c : PendingCostChange) (item : Item)
    (user : Option String) (now today : ℤ) :
    Except String (PendingCostChange × Item × ChangeHistory) :=
  if c.status ≠ Status.approved then
    Except.error "Cost change must be APPROVED before applying"
  else
    let retail_changed : Bool :=
      c.approved_retail.isSome && decide (c.approved_retail ≠ item.retail_price)
    let change_type := if retail_changed then ChangeType.costAndPrice
                       else ChangeType.costOnly
    let hist : ChangeHistory :=
      { vendor_code := item.vendor_code
        upc := item.upc
        change_type := change_type
        old_case_cost := some item.case_cost
        old_allowance := some item.allowance
        new_case_cost := some c.new_case_cost
        new_allowance := some c.new_allowance
        old_retail := item.retail_price
        new_retail := c.approved_retail
        old_margin := item.margin
        new_margin := none
        changed_by := some (user.getD "SYSTEM")
        change_source := c.change_source
        pending_cost_change_id := some c.id }
    let item1 := { item with case_cost := c.new_case_cost,
                             allowance := c.new_allowance,
                             last_cost_change := some today }
    let item2 := if retail_changed then
                   { item1 with retail_price := c.approved_retail,
                                last_price_change := some today }
                 else item1
    let c1 := { c with status := Status.applied, applied_at := some now }
    Except.ok (c1, item2, hist)

-- ============================================================
-- View-layer operations (dsd/views.py)
-- ============================================================

/-- `approve_change` (views.py lines 268–295) on the record addressed by the
URL's `change_id`.  `get_object_or_404(PendingCostChange, id=change_id,
status='PENDING')` raises 404 before anything is touched when the record is
not PENDING; we return the untouched record together with the error marker.
POST branches dispatch on `action`. -/
def approve_change (c : PendingCostChange) (action : String)
    (retail_override : Option ℚ) (user : String) (now : ℤ) :
    PendingCostChange × Option String :=
  if c.status ≠ Status.pending then (c, some "404 Not Found")
  else if action = "approve" then
    (c.approve user retail_override now, none)
  else if action = "reject" then
    ({ c with status := Status.rejected,
              approved_by := some user,
              approved_at := some now }, none)
  else (c, none)

/-- `apply_change` (views.py lines 301–316): `get_object_or_404(...,
status='APPROVED')` raises 404 on a non-APPROVED record; otherwise
`apply_to_item` runs (whose own `ValueError` would be caught and reported).
The error cases leave both the record and the item untouched. -/
def apply_change (c : PendingCostChange) (item : Item) (user : String)
    (now today : ℤ) : PendingCostChange × Item × Option String :=
  if c.status ≠ Status.approved then (c, item, some "404 Not Found")
  else
    match c.apply_to_item item (some user) now today with
    | Except.error e => (c, item, some e)
    | Except.ok (c1, item1, _) => (c1, item1, none)

/-- The lookup predicate of `cost_change_entry`:
`PendingCostChange.objects.filter(item=item, status='PENDING')`. -/
def isPendingFor (iid : Nat) (c : PendingCostChange) : Bool :=
  decide (c.item_id = iid ∧ c.status = Status.pending)

/-- Replace the first record matching `isPendingFor iid` (the `.first()` row)
by its updated version — an in-place `save()` of an existing row. -/
def updateFirstPending (iid : Nat) (f : PendingCostChange → PendingCostChange) :
    List PendingCostChange → List PendingCostChange
  | [] => []
  | c :: rest =>
      if isPendingFor iid c then f c :: rest
      else c :: updateFirstPending iid f rest

/-- A fresh primary key for an inserted row. -/
def freshId (db : List PendingCostChange) : Nat :=
  db.foldr (fun c a => max c.id a) 0 + 1

/-- The margin basis of `cost_change_entry` (views.py lines 210–211):
`float(item.margin) if item.margin else float(item.vendor.target_margin)`.
Python truthiness: a margin of exactly 0 falls through to the vendor
default, as does an undefined margin. -/
def marginBasis (item : Item) (vendor : Vendor) : ℚ :=
  match item.margin with
  | some m => if m ≠ 0 then m else vendor.target_margin
  | none => vendor.target_margin

/-- `cost_change_entry` POST handler (views.py lines 190–262), happy path of
the `try` block.  Inputs arrive already parsed to numbers (`float(...)` on the
posted strings); an absent/empty allowance defaults to `0`, and an
absent/empty `approved_retail` override falls back to the suggestion
(`approved_retail or suggested`).  A zero `case_pack` would raise an uncaught
`ZeroDivisionError`, saving nothing.  If a PENDING record already exists for
the item it is updated in place, else a new record is appended. -/
def cost_change_entry_post (db : List PendingCostChange) (item : Item)
    (vendor : Vendor) (new_case_cost : ℚ) (new_allowance : Option ℚ)
    (effective_date : ℤ) (approved_retail : Option ℚ) (notes : String)
    (user : String) : Except String (List PendingCostChange) :=
  if item.case_pack = 0 then Except.error "ZeroDivisionError"
  else
    let new_allow := new_allowance.getD 0
    let new_unit_cost := (new_case_cost - new_allow) / (item.case_pack : ℚ)
    let suggested := suggest_retail new_unit_cost (marginBasis item vendor)
    let setFields := fun (c : PendingCostChange) =>
      { c with new_case_cost := new_case_cost
               new_allowance := new_allow
               effective_date := effective_date
               suggested_retail := suggested
               approved_retail := match approved_retail with
                                  | some v => some v
                                  | none => suggested
               prev_case_cost := some item.case_cost
               prev_allowance := some item.allowance
               prev_retail := item.retail_price
               prev_margin := item.margin
               change_source := ChangeSource.manual
               submitted_by := some user
               notes := some notes
               status := Status.pending }
    if (db.find? (isPendingFor item.id)).isSome then
      Except.ok (updateFirstPending item.id setFields db)
    else
        let fresh : PendingCostChange := setFields
          { id := freshId db
            item_id := item.id
            vendor_code := item.vendor_code
            upc := item.upc
            new_case_cost := 0
            new_allowance := 0
            effective_date := 0
            suggested_retail := none
            approved_retail := none
            prev_case_cost := none
            prev_allowance := none
            prev_retail := none
            prev_margin := none
            status := Status.pending
            change_source := ChangeSource.manual
            submitted_by := none
            approved_by := none
            approved_at := none
            applied_at := none
            notes := none }
        Except.ok (db ++ [fresh])

/-- One CSV data row of the BRData export (views.py lines 355–362). -/
structure ExportRow where
  item_no : String
  upc : String
  description : String
  new_retail : Option ℚ
  effective_date : ℤ
  vendor_code : String
deriving DecidableEq

/-- The export's selection predicate: APPROVED and due. -/
def isDueApproved (today : ℤ) (c : PendingCostChange) : Bool :=
  decide (c.status = Status.approved ∧ c.effective_date ≤ today)

/-- The CSV row written for one change (`getItem` resolves the FK). -/
def exportRowOf (getItem : Nat → Item) (c : PendingCostChange) : ExportRow :=
  { item_no := ((getItem c.item_id).brdata_item_no).getD ""
    upc := c.upc
    description := (getItem c.item_id).description
    new_retail := c.approved_retail
    effective_date := c.effective_date
    vendor_code := c.vendor_code }

/-- The log entry written for one change (views.py lines 366–377). -/
def exportLogOf (getItem : Nat → Item) (filename user : String)
    (c : PendingCostChange) : BRDataExportLog :=
  { export_type := "PRICE_CHANGE"
    vendor_code := c.vendor_code
    upc := c.upc
    brdata_item_no := (getItem c.item_id).brdata_item_no
    new_retail := c.approved_retail
    effective_date := some c.effective_date
    export_status := "SENT"
    export_file := some filename
    exported_by := some user }

/-- `brdata_export` (views.py lines 323–379).  Selects APPROVED changes with
`effective_date ≤ today`; when none match it returns `none` (the
warning-and-redirect empty-result path).  Otherwise it emits one row and one
SENT log entry per selected change.  No `PendingCostChange` is saved, so the
second component — the database after the run — is the input unchanged. -/
def brdata_export (db : List PendingCostChange) (getItem : Nat → Item)
    (today : ℤ) (user : String) :
    Option (String × List ExportRow × List BRDataExportLog) ×
      List PendingCostChange :=
  let changes := db.filter (isDueApproved today)
  if changes.isEmpty then (none, db)
  else
    let filename := "brdata_export_" ++ toString today ++ ".csv"
    let rows := changes.map (exportRowOf getItem)
    let logs := changes.map (exportLogOf getItem filename user)
    (some (filename, rows, logs), db)

-- ============================================================
-- Claim theorems
-- ============================================================

/-- C1: the claim states `suggest_retail(u, m) * (1 - m) ≥ u` for all valid
inputs, including fractional-cent theoretical values.  The code truncates the
theoretical price to whole cents before rounding up to an ".X8" ending, and
its final below-theoretical guard compares against the truncated value, so it
never fires.  On the function's own docstring example (`unit_cost=$4.50,
margin=29.5% -> suggested=$6.48`), the code returns $6.38, which undercuts:
6.38 · 0.705 = 4.4979 < 4.50.  The code contradicts its own documentation. -/
theorem suggest_retail_undercuts_docstring_example :
    suggest_retail (9/2) (59/200) = some (319/50) ∧
    (319 : ℚ)/50 * (1 - 59/200) < 9/2 ∧
    (319 : ℚ)/50 < (9/2 : ℚ) / (1 - 59/200) := by
  refine ⟨?_, by norm_num, by norm_num⟩
  unfold suggest_retail
  norm_num

/-- C5: `suggest_retail` is defined exactly when the unit cost is positive and
the margin lies strictly in (0,1), and every defined result is a whole number
of cents ending in the digit 8. -/
theorem suggest_retail_defined_iff_and_ends_in_8 (u m : ℚ) :
    ((suggest_retail u m).isSome ↔ 0 < u ∧ 0 < m ∧ m < 1) ∧
    (∀ s, suggest_retail u m = some s →
      ∃ k : ℤ, s = (k : ℚ)/100 ∧ k % 10 = 8) := by
  by_cases h1 : m ≤ 0 ∨ 1 ≤ m
  · constructor
    · unfold suggest_retail
      rw [if_pos h1]
      simp only [Option.isSome_none, Bool.false_eq_true, false_iff]
      rintro ⟨-, hm0, hm1⟩
      rcases h1 with h | h
      · linarith
      · linarith
    · intro s hs
      unfold suggest_retail at hs
      rw [if_pos h1] at hs
      exact absurd hs (by simp)
  · by_cases h2 : u ≤ 0
    · constructor
      · unfold suggest_retail
        rw [if_neg h1, if_pos h2]
        simp only [Option.isSome_none, Bool.false_eq_true, false_iff]
        rintro ⟨hu, -, -⟩
        linarith
      · intro s hs
        unfold suggest_retail at hs
        rw [if_neg h1, if_pos h2] at hs
        exact absurd hs (by simp)
    · push_neg at h1 h2
      obtain ⟨s, hs, -, -, h8⟩ := suggest_retail_spec u m h2 h1.1 h1.2
      constructor
      · rw [hs]
        simp only [Option.isSome_some, true_iff]
        exact ⟨h2, h1.1, h1.2⟩
      · intro s0 hs0
        rw [hs] at hs0
        exact ⟨s, (Option.some_inj.mp hs0).symm, h8⟩

/-- C5 witness: concrete instantiation at unit cost 1 and margin 1/2. -/
theorem suggest_retail_defined_iff_and_ends_in_8_w :
    ((suggest_retail 1 (1/2)).isSome ↔
      0 < (1 : ℚ) ∧ 0 < (1/2 : ℚ) ∧ (1/2 : ℚ) < 1) ∧
    (∀ s, suggest_retail 1 (1/2) = some s →
      ∃ k : ℤ, s = (k : ℚ)/100 ∧ k % 10 = 8) :=
  suggest_retail_defined_iff_and_ends_in_8 1 (1/2)

/-- C6: the claim states `calculate_margin(suggest_retail(u, m), u) ≥ m` for
all valid inputs.  Because `suggest_retail` can undercut the theoretical
price (see the C1 theorem), the re-derived margin can fall below the target:
at the docstring's own example (u = 4.50, m = 0.295) the suggestion is $6.38
and the margin computes to 0.2947 < 0.295. -/
theorem margin_roundtrip_below_target :
    calculate_margin ((suggest_retail (9/2) (59/200)).getD 0) (9/2) =
      some (2947/10000) ∧
    (2947 : ℚ)/10000 < 59/200 := by
  have h : suggest_retail (9/2) (59/200) = some (319/50) := by
    unfold suggest_retail
    norm_num
  refine ⟨?_, by norm_num⟩
  rw [h]
  unfold calculate_margin quantize4 roundHalfEven
  norm_num

-- ============================================================
-- Sample records for concrete instantiations
-- ============================================================

/-- A sample item: the spec scenario item (case_cost $10.00, allowance $0.00,
case_pack 4, retail $3.48). -/
def sampleItem : Item :=
  { id := 1
    vendor_code := "FRITO"
    upc := "100000000000"
    brdata_item_no := some "4411"
    description := "sample item"
    case_pack := 4
    case_cost := 10
    allowance := 0
    retail_price := some (87/25)
    last_cost_change := some 1
    last_price_change := some 1 }

/-- A sample pending cost change for `sampleItem` (new case cost $11.00,
suggested retail $3.88). -/
def samplePending : PendingCostChange :=
  { id := 7
    item_id := 1
    vendor_code := "FRITO"
    upc := "100000000000"
    new_case_cost := 11
    new_allowance := 0
    effective_date := 10
    suggested_retail := some (97/25)
    approved_retail := some (97/25)
    prev_case_cost := some 10
    prev_allowance := some 0
    prev_retail := some (87/25)
    prev_margin := some (176/625)
    status := Status.pending
    change_source := ChangeSource.manual
    submitted_by := some "buyer"
    approved_by := none
    approved_at := none
    applied_at := none
    notes := none }

/-- The sample change after rejection. -/
def sampleRejected : PendingCostChange :=
  { samplePending with status := Status.rejected }

/-- The sample change after approval. -/
def sampleApproved : PendingCostChange :=
  { samplePending with status := Status.approved,
                       approved_by := some "buyer",
                       approved_at := some 4 }

/-- C2: every exposed mutating operation refuses a record in the wrong state
and leaves all state untouched.  The approve/reject endpoint looks its record
up with `status='PENDING'` and 404s before mutating anything; the apply
endpoint looks up with `status='APPROVED'`; and `apply_to_item` itself raises
`ValueError` on a non-APPROVED record before touching the item or the
record. -/
theorem wrong_state_operations_fail_without_mutation :
    (∀ (c : PendingCostChange) (action : String) (ro : Option ℚ)
        (user : String) (now : ℤ), c.status ≠ Status.pending →
        approve_change c action ro user now = (c, some "404 Not Found")) ∧
    (∀ (c : PendingCostChange) (item : Item) (user : String) (now today : ℤ),
        c.status ≠ Status.approved →
        apply_change c item user now today = (c, item, some "404 Not Found")) ∧
    (∀ (c : PendingCostChange) (item : Item) (user : Option String)
        (now today : ℤ), c.status ≠ Status.approved →
        c.apply_to_item item user now today =
          Except.error "Cost change must be APPROVED before applying") := by
  refine ⟨?_, ?_, ?_⟩
  · intro c action ro user now h
    unfold approve_change
    rw [if_pos h]
  · intro c item user now today h
    unfold apply_change
    rw [if_pos h]
  · intro c item user now today h
    unfold PendingCostChange.apply_to_item
    rw [if_pos h]

/-- C2 witness: on the rejected sample change, approve, reject, and apply all
fail and return the input state unchanged. -/
theorem wrong_state_operations_fail_without_mutation_w :
    approve_change sampleRejected "approve" none "buyer" 5 =
      (sampleRejected, some "404 Not Found") ∧
    approve_change sampleRejected "reject" none "buyer" 5 =
      (sampleRejected, some "404 Not Found") ∧
    apply_change sampleRejected sampleItem "buyer" 5 5 =
      (sampleRejected, sampleItem, some "404 Not Found") ∧
    PendingCostChange.apply_to_item sampleRejected sampleItem (some "buyer") 5 5 =
      Except.error "Cost change must be APPROVED before applying" :=
  ⟨wrong_state_operations_fail_without_mutation.1 sampleRejected "approve" none
      "buyer" 5 (by decide),
   wrong_state_operations_fail_without_mutation.1 sampleRejected "reject" none
      "buyer" 5 (by decide),
   wrong_state_operations_fail_without_mutation.2.1 sampleRejected sampleItem
      "buyer" 5 5 (by decide),
   wrong_state_operations_fail_without_mutation.2.2 sampleRejected sampleItem
      (some "buyer") 5 5 (by decide)⟩

/-- C10: `approve` tests the retail override for truthiness, so an override
of 0 is treated as if none were given: the change is still approved, and
`approved_retail` keeps its previous value, defaulting to `suggested_retail`
only when it was unset. -/
theorem approve_zero_override_ignored (c : PendingCostChange) (user : String)
    (now : ℤ) (_h : c.status = Status.pending) :
    (c.approve user (some 0) now).status = Status.approved ∧
    (c.approve user (some 0) now).approved_retail =
      (if c.approved_retail = none then c.suggested_retail
       else c.approved_retail) := by
  unfold PendingCostChange.approve truthy
  simp only [bne_self_eq_false, Bool.false_eq_true, if_false]
  split
  · simp_all
  · simp_all

/-- C10 witness: approving the sample pending change with a zero override
still approves it and keeps the previously stored approved retail. -/
theorem approve_zero_override_ignored_w :
    (samplePending.approve "buyer" (some 0) 4).status = Status.approved ∧
    (samplePending.approve "buyer" (some 0) 4).approved_retail =
      (if samplePending.approved_retail = none then
        samplePending.suggested_retail
       else samplePending.approved_retail) :=
  approve_zero_override_ignored samplePending "buyer" 4 rfl

/-- C3: on an APPROVED change, `apply_to_item` succeeds; the history record is
built from the item's pre-update values with the change type determined by
`retail_changed`; the item's cost, allowance and last-cost-change date are
updated unconditionally while retail and the last-price-change date move only
when `retail_changed`; and the change ends APPLIED with an applied
timestamp. -/
theorem apply_to_item_approved_behavior (c : PendingCostChange) (item : Item)
    (user : Option String) (now today : ℤ) (h : c.status = Status.approved) :
    ∃ c1 item1 hist,
      c.apply_to_item item user now today = Except.ok (c1, item1, hist) ∧
      (c.approved_retail.isSome ∧ c.approved_retail ≠ item.retail_price →
        hist.change_type = ChangeType.costAndPrice ∧
        item1.retail_price = c.approved_retail ∧
        item1.last_price_change = some today) ∧
      (¬(c.approved_retail.isSome ∧ c.approved_retail ≠ item.retail_price) →
        hist.change_type = ChangeType.costOnly ∧
        item1.retail_price = item.retail_price ∧
        item1.last_price_change = item.last_price_change) ∧
      hist.old_case_cost = some item.case_cost ∧
      hist.old_allowance = some item.allowance ∧
      hist.old_retail = item.retail_price ∧
      hist.old_margin = item.margin ∧
      hist.new_case_cost = some c.new_case_cost ∧
      hist.new_retail = c.approved_retail ∧
      item1.case_cost = c.new_case_cost ∧
      item1.allowance = c.new_allowance ∧
      item1.last_cost_change = some today ∧
      c1.status = Status.applied ∧
      c1.applied_at = some now := by
  have hng : ¬c.status ≠ Status.approved := by simp [h]
  unfold PendingCostChange.apply_to_item
  rw [if_neg hng]
  by_cases hrc : c.approved_retail.isSome ∧ c.approved_retail ≠ item.retail_price
  · have hb : (c.approved_retail.isSome &&
        decide (c.approved_retail ≠ item.retail_price)) = true := by
      simp [hrc.1, hrc.2]
    refine ⟨_, _, _, rfl, ?_⟩
    simp [hb, hrc.1, hrc.2]
  · have hb : (c.approved_retail.isSome &&
        decide (c.approved_retail ≠ item.retail_price)) = false := by
      rcases Decidable.not_and_iff_or_not.mp hrc with h1 | h2
      · simp [h1]
      · simp [h2]
    refine ⟨_, _, _, rfl, ?_⟩
    simp only [hb, Bool.false_eq_true, if_false]
    refine ⟨fun hc => absurd hc hrc, fun _ => ?_, ?_⟩ <;> simp

/-- C3 witness: applying the approved sample change (approved retail $3.88
differs from the item's $3.48, so retail moves too). -/
theorem apply_to_item_approved_behavior_w :
    ∃ c1 item1 hist,
      sampleApproved.apply_to_item sampleItem (some "buyer") 5 5 =
        Except.ok (c1, item1, hist) ∧
      (sampleApproved.approved_retail.isSome ∧
          sampleApproved.approved_retail ≠ sampleItem.retail_price →
        hist.change_type = ChangeType.costAndPrice ∧
        item1.retail_price = sampleApproved.approved_retail ∧
        item1.last_price_change = some 5) ∧
      (¬(sampleApproved.approved_retail.isSome ∧
          sampleApproved.approved_retail ≠ sampleItem.retail_price) →
        hist.change_type = ChangeType.costOnly ∧
        item1.retail_price = sampleItem.retail_price ∧
        item1.last_price_change = sampleItem.last_price_change) ∧
      hist.old_case_cost = some sampleItem.case_cost ∧
      hist.old_allowance = some sampleItem.allowance ∧
      hist.old_retail = sampleItem.retail_price ∧
      hist.old_margin = sampleItem.margin ∧
      hist.new_case_cost = some sampleApproved.new_case_cost ∧
      hist.new_retail = sampleApproved.approved_retail ∧
      item1.case_cost = sampleApproved.new_case_cost ∧
      item1.allowance = sampleApproved.new_allowance ∧
      item1.last_cost_change = some 5 ∧
      c1.status = Status.applied ∧
      c1.applied_at = some 5 :=
  apply_to_item_approved_behavior sampleApproved sampleItem (some "buyer") 5 5 rfl

/-- Projection used to inspect the new-margin column of the history record
produced by an apply run. -/
def newMarginOf (r : PendingCostChange × Item × ChangeHistory) : Option ℚ :=
  r.2.2.new_margin

/-- C8 counterexample: the claim says both the old margin and the new margin
are populated, but the `ChangeHistory.objects.create` call in `apply_to_item`
never passes `new_margin`, so the column keeps its default NULL. -/
theorem history_new_margin_left_null :
    Except.map newMarginOf
      (sampleApproved.apply_to_item sampleItem (some "buyer") 5 5) =
      Except.ok none := rfl

/-- C8 (amended): the history record written by an apply carries the
before/after cost, allowance and retail, the item's pre-update (old) margin,
the vendor/UPC strings, attribution, the change source copied from the
pending change, and the numeric back-reference to it — but `new_margin` is
left unpopulated. -/
theorem history_record_contents (c : PendingCostChange) (item : Item)
    (user : Option String) (now today : ℤ) (h : c.status = Status.approved) :
    ∃ out, c.apply_to_item item user now today = Except.ok out ∧
      out.2.2.vendor_code = item.vendor_code ∧
      out.2.2.upc = item.upc ∧
      out.2.2.old_case_cost = some item.case_cost ∧
      out.2.2.old_allowance = some item.allowance ∧
      out.2.2.new_case_cost = some c.new_case_cost ∧
      out.2.2.new_allowance = some c.new_allowance ∧
      out.2.2.old_retail = item.retail_price ∧
      out.2.2.new_retail = c.approved_retail ∧
      out.2.2.old_margin = item.margin ∧
      out.2.2.new_margin = none ∧
      out.2.2.changed_by = some (user.getD "SYSTEM") ∧
      out.2.2.change_source = c.change_source ∧
      out.2.2.pending_cost_change_id = some c.id := by
  have hng : ¬c.status ≠ Status.approved := by simp [h]
  unfold PendingCostChange.apply_to_item
  rw [if_neg hng]
  exact ⟨_, rfl, rfl, rfl, rfl, rfl, rfl, rfl, rfl, rfl, rfl, rfl, rfl, rfl, rfl⟩

/-- C8 witness: the history written for the approved sample change. -/
theorem history_record_contents_w :
    ∃ out, sampleApproved.apply_to_item sampleItem (some "buyer") 5 5 =
        Except.ok out ∧
      out.2.2.vendor_code = sampleItem.vendor_code ∧
      out.2.2.upc = sampleItem.upc ∧
      out.2.2.old_case_cost = some sampleItem.case_cost ∧
      out.2.2.old_allowance = some sampleItem.allowance ∧
      out.2.2.new_case_cost = some sampleApproved.new_case_cost ∧
      out.2.2.new_allowance = some sampleApproved.new_allowance ∧
      out.2.2.old_retail = sampleItem.retail_price ∧
      out.2.2.new_retail = sampleApproved.approved_retail ∧
      out.2.2.old_margin = sampleItem.margin ∧
      out.2.2.new_margin = none ∧
      out.2.2.changed_by = some "buyer" ∧
      out.2.2.change_source = sampleApproved.change_source ∧
      out.2.2.pending_cost_change_id = some sampleApproved.id :=
  history_record_contents sampleApproved sampleItem (some "buyer") 5 5 rfl

-- ============================================================
-- List lemmas for the upsert reasoning
-- ============================================================

theorem find?_none_of_all_false {α} {p : α → Bool} :
    ∀ {xs : List α}, (∀ a ∈ xs, p a = false) → xs.find? p = none := by
  intro xs h
  induction xs with
  | nil => rfl
  | cons x xs ih =>
    have hx : p x = false := h x (List.mem_cons_self x xs)
    rw [List.find?_cons, hx]
    exact ih fun a ha => h a (List.mem_cons_of_mem x ha)

theorem find?_append_last {α} {p : α → Bool} {c : α} :
    ∀ {xs : List α}, (∀ a ∈ xs, p a = false) → p c = true →
      (xs ++ [c]).find? p = some c := by
  intro xs h hc
  induction xs with
  | nil => simp [List.find?_cons, hc]
  | cons x xs ih =>
    have hx : p x = false := h x (List.mem_cons_self x xs)
    rw [List.cons_append, List.find?_cons, hx]
    exact ih fun a ha => h a (List.mem_cons_of_mem x ha)

theorem filter_nil_of_all_false {α} {p : α → Bool} :
    ∀ {xs : List α}, (∀ a ∈ xs, p a = false) → xs.filter p = [] := by
  intro xs h
  induction xs with
  | nil => rfl
  | cons x xs ih =>
    have hx : p x = false := h x (List.mem_cons_self x xs)
    rw [List.filter_cons, hx]
    simp only [Bool.false_eq_true, if_false]
    exact ih fun a ha => h a (List.mem_cons_of_mem x ha)

theorem updateFirstPending_append_last {iid : Nat}
    {f : PendingCostChange → PendingCostChange} {c : PendingCostChange} :
    ∀ {xs : List PendingCostChange},
      (∀ a ∈ xs, isPendingFor iid a = false) → isPendingFor iid c = true →
      updateFirstPending iid f (xs ++ [c]) = xs ++ [f c] := by
  intro xs h hc
  induction xs with
  | nil => simp [updateFirstPending, hc]
  | cons x xs ih =>
    have hx : isPendingFor iid x = false := h x (List.mem_cons_self x xs)
    rw [List.cons_append, updateFirstPending, hx]
    simp only [Bool.false_eq_true, if_false, List.cons_append, List.cons.injEq,
      true_and]
    exact ih fun a ha => h a (List.mem_cons_of_mem x ha)

-- ============================================================
-- Submit-path lemmas
-- ============================================================

/-- When the item has no open PENDING change, a submission appends one fresh
PENDING record carrying the submitted values, the computed suggestion, and a
snapshot of the item's live state. -/
theorem cost_change_entry_post_creates (db : List PendingCostChange)
    (item : Item) (vendor : Vendor) (ncc : ℚ) (na : Option ℚ) (e : ℤ)
    (ar : Option ℚ) (notes user : String) (hcp : item.case_pack ≠ 0)
    (h0 : ∀ a ∈ db, isPendingFor item.id a = false) :
    ∃ c, cost_change_entry_post db item vendor ncc na e ar notes user =
        Except.ok (db ++ [c]) ∧
      isPendingFor item.id c = true ∧
      c.item_id = item.id ∧
      c.status = Status.pending ∧
      c.new_case_cost = ncc ∧
      c.new_allowance = na.getD 0 ∧
      c.effective_date = e ∧
      c.suggested_retail =
        suggest_retail ((ncc - na.getD 0) / (item.case_pack : ℚ))
          (marginBasis item vendor) ∧
      (c.approved_retail = match ar with
                           | some v => some v
                           | none => c.suggested_retail) ∧
      c.prev_case_cost = some item.case_cost ∧
      c.prev_allowance = some item.allowance ∧
      c.prev_retail = item.retail_price ∧
      c.prev_margin = item.margin ∧
      c.change_source = ChangeSource.manual ∧
      c.submitted_by = some user := by
  have hf : db.find? (isPendingFor item.id) = none := find?_none_of_all_false h0
  unfold cost_change_entry_post
  rw [if_neg hcp, hf]
  simp only [Option.isSome_none, Bool.false_eq_true, if_false]
  refine ⟨_, rfl, ?_, rfl, rfl, rfl, rfl, rfl, rfl, rfl, rfl, rfl, rfl, rfl,
    rfl, rfl⟩
  simp [isPendingFor]

/-- When the item already has exactly one open PENDING change (sitting after a
prefix with none), a submission rewrites that record in place — same list
length, same position — with the new submission's values and a fresh snapshot
of the item's live state. -/
theorem cost_change_entry_post_updates (xs : List PendingCostChange)
    (c0 : PendingCostChange) (item : Item) (vendor : Vendor) (ncc : ℚ)
    (na : Option ℚ) (e : ℤ) (ar : Option ℚ) (notes user : String)
    (hcp : item.case_pack ≠ 0)
    (h0 : ∀ a ∈ xs, isPendingFor item.id a = false)
    (hc0 : isPendingFor item.id c0 = true) :
    ∃ c, cost_change_entry_post (xs ++ [c0]) item vendor ncc na e ar notes
        user = Except.ok (xs ++ [c]) ∧
      isPendingFor item.id c = true ∧
      c.item_id = c0.item_id ∧
      c.status = Status.pending ∧
      c.new_case_cost = ncc ∧
      c.new_allowance = na.getD 0 ∧
      c.effective_date = e ∧
      c.suggested_retail =
        suggest_retail ((ncc - na.getD 0) / (item.case_pack : ℚ))
          (marginBasis item vendor) ∧
      (c.approved_retail = match ar with
                           | some v => some v
                           | none => c.suggested_retail) ∧
      c.prev_case_cost = some item.case_cost ∧
      c.prev_allowance = some item.allowance ∧
      c.prev_retail = item.retail_price ∧
      c.prev_margin = item.margin ∧
      c.change_source = ChangeSource.manual ∧
      c.submitted_by = some user := by
  have hf : (xs ++ [c0]).find? (isPendingFor item.id) = some c0 :=
    find?_append_last h0 hc0
  unfold cost_change_entry_post
  rw [if_neg hcp, hf]
  simp only [Option.isSome_some, if_true]
  rw [updateFirstPending_append_last h0 hc0]
  refine ⟨_, rfl, ?_, ?_, rfl, rfl, rfl, rfl, rfl, rfl, rfl, rfl, rfl, rfl,
    rfl, rfl⟩
  · have : c0.item_id = item.id ∧ c0.status = Status.pending := by
      simpa [isPendingFor] using hc0
    simp [isPendingFor, this.1]
  · rfl

/-- C4: starting from a database with no open PENDING change for the item,
two successive submissions leave exactly one PENDING record for it: the
second submission rewrites the record created by the first in place (the
database grows by one row total), and the surviving record carries the second
submission's values with the prev-* snapshot taken from the item's live state
at the time of the second submission. -/
theorem at_most_one_pending_upsert (db0 : List PendingCostChange)
    (item1 item2 : Item) (vendor1 vendor2 : Vendor) (ncc1 ncc2 : ℚ)
    (na1 na2 : Option ℚ) (e1 e2 : ℤ) (ar1 ar2 : Option ℚ)
    (n1 n2 u1 u2 : String) (hid : item2.id = item1.id)
    (hcp1 : item1.case_pack ≠ 0) (hcp2 : item2.case_pack ≠ 0)
    (h0 : ∀ a ∈ db0, isPendingFor item1.id a = false) :
    ∃ db1 db2,
      cost_change_entry_post db0 item1 vendor1 ncc1 na1 e1 ar1 n1 u1 =
        Except.ok db1 ∧
      cost_change_entry_post db1 item2 vendor2 ncc2 na2 e2 ar2 n2 u2 =
        Except.ok db2 ∧
      db1.length = db0.length + 1 ∧
      db2.length = db0.length + 1 ∧
      ∃ c, db2.filter (isPendingFor item1.id) = [c] ∧
        c.status = Status.pending ∧
        c.new_case_cost = ncc2 ∧
        c.new_allowance = na2.getD 0 ∧
        c.effective_date = e2 ∧
        c.suggested_retail =
          suggest_retail ((ncc2 - na2.getD 0) / (item2.case_pack : ℚ))
            (marginBasis item2 vendor2) ∧
        c.prev_case_cost = some item2.case_cost ∧
        c.prev_allowance = some item2.allowance ∧
        c.prev_retail = item2.retail_price ∧
        c.prev_margin = item2.margin ∧
        c.submitted_by = some u2 := by
  obtain ⟨c1, hpost1, hp1, -, -, -, -, -, -, -, -, -, -, -, -, -⟩ :=
    cost_change_entry_post_creates db0 item1 vendor1 ncc1 na1 e1 ar1 n1 u1
      hcp1 h0
  have h0b : ∀ a ∈ db0, isPendingFor item2.id a = false := by
    rw [hid]; exact h0
  have hp1b : isPendingFor item2.id c1 = true := by
    rw [hid]; exact hp1
  obtain ⟨c2, hpost2, hp2, -, hst, hncc, hna, he, hsg, -, hpcc, hpa, hpr, hpm,
      -, hsb⟩ :=
    cost_change_entry_post_updates db0 c1 item2 vendor2 ncc2 na2 e2 ar2 n2 u2
      hcp2 h0b hp1b
  have hp2a : isPendingFor item1.id c2 = true := by
    rw [← hid]; exact hp2
  refine ⟨db0 ++ [c1], db0 ++ [c2], hpost1, hpost2, by simp, by simp,
    c2, ?_, hst, hncc, hna, he, hsg, hpcc, hpa, hpr, hpm, hsb⟩
  rw [List.filter_append, filter_nil_of_all_false h0]
  simp [List.filter_cons, hp2a]

/-- The sample item's vendor. -/
def sampleVendor : Vendor :=
  { vendor_code := "FRITO"
    vendor_name := "Frito-Lay Inc."
    target_margin := 28/100 }

/-- The sample item as live at the time of a second submission: the first
submission's retail was applied meanwhile is NOT assumed — only its cost
figure differs, to show the snapshot tracks the live state. -/
def sampleItemLater : Item :=
  { sampleItem with case_cost := 21/2, retail_price := some (97/25) }

/-- C4 witness: two concrete submissions against an empty database. -/
theorem at_most_one_pending_upsert_w :
    ∃ db1 db2,
      cost_change_entry_post [] sampleItem sampleVendor 11 none 10 none
        "n1" "buyer1" = Except.ok db1 ∧
      cost_change_entry_post db1 sampleItemLater sampleVendor 12 none 11 none
        "n2" "buyer2" = Except.ok db2 ∧
      db1.length = ([] : List PendingCostChange).length + 1 ∧
      db2.length = ([] : List PendingCostChange).length + 1 ∧
      ∃ c, db2.filter (isPendingFor sampleItem.id) = [c] ∧
        c.status = Status.pending ∧
        c.new_case_cost = 12 ∧
        c.new_allowance = (none : Option ℚ).getD 0 ∧
        c.effective_date = 11 ∧
        c.suggested_retail =
          suggest_retail ((12 - (none : Option ℚ).getD 0) /
              (sampleItemLater.case_pack : ℚ))
            (marginBasis sampleItemLater sampleVendor) ∧
        c.prev_case_cost = some sampleItemLater.case_cost ∧
        c.prev_allowance = some sampleItemLater.allowance ∧
        c.prev_retail = sampleItemLater.retail_price ∧
        c.prev_margin = sampleItemLater.margin ∧
        c.submitted_by = some "buyer2" :=
  at_most_one_pending_upsert [] sampleItem sampleItemLater sampleVendor
    sampleVendor 11 12 none none 10 11 none none "n1" "n2" "buyer1" "buyer2"
    rfl (by decide) (by decide) (by simp)

-- ============================================================
-- Export lemmas
-- ============================================================

theorem brdata_export_snd (db : List PendingCostChange) (getItem : Nat → Item)
    (today : ℤ) (user : String) :
    (brdata_export db getItem today user).2 = db := by
  simp only [brdata_export]
  split <;> rfl

theorem brdata_export_nonempty (db : List PendingCostChange)
    (getItem : Nat → Item) (today : ℤ) (user : String)
    (h : (db.filter (isDueApproved today)).isEmpty = false) :
    brdata_export db getItem today user =
      (some ("brdata_export_" ++ toString today ++ ".csv",
        (db.filter (isDueApproved today)).map (exportRowOf getItem),
        (db.filter (isDueApproved today)).map
          (exportLogOf getItem ("brdata_export_" ++ toString today ++ ".csv")
            user)), db) := by
  simp only [brdata_export, h, Bool.false_eq_true, if_false]

/-- C7: the export selects exactly the APPROVED changes whose effective date
has arrived; an empty selection yields the empty-result signal rather than an
error; otherwise one output row and one SENT log entry (carrying the run's
file name and the exporting user) are produced per selected change; no
change's state is modified, so re-running produces the identical output. -/
theorem brdata_export_behavior (db : List PendingCostChange)
    (getItem : Nat → Item) (today : ℤ) (user : String) :
    (∀ c ∈ db, c ∈ db.filter (isDueApproved today) ↔
      c.status = Status.approved ∧ c.effective_date ≤ today) ∧
    ((brdata_export db getItem today user).1 = none ↔
      db.filter (isDueApproved today) = []) ∧
    (brdata_export db getItem today user).2 = db ∧
    (∀ fn rows logs,
      (brdata_export db getItem today user).1 = some (fn, rows, logs) →
      fn = "brdata_export_" ++ toString today ++ ".csv" ∧
      rows = (db.filter (isDueApproved today)).map (exportRowOf getItem) ∧
      logs = (db.filter (isDueApproved today)).map
        (exportLogOf getItem fn user) ∧
      rows.length = (db.filter (isDueApproved today)).length ∧
      logs.length = (db.filter (isDueApproved today)).length ∧
      ∀ l ∈ logs, l.export_status = "SENT" ∧ l.export_file = some fn ∧
        l.exported_by = some user) ∧
    brdata_export db getItem today user =
      brdata_export (brdata_export db getItem today user).2 getItem today
        user := by
  refine ⟨?_, ?_, brdata_export_snd db getItem today user, ?_,
    by rw [brdata_export_snd]⟩
  · intro c hc
    simp [List.mem_filter, isDueApproved, hc]
  · rcases hl : (db.filter (isDueApproved today)).isEmpty with hf | ht
    · rw [brdata_export_nonempty db getItem today user hl]
      have hne : db.filter (isDueApproved today) ≠ [] := by
        intro hnil
        rw [hnil] at hl
        exact absurd hl (by simp)
      simp [hne]
    · simp only [brdata_export, hl, if_true]
      simp only [List.isEmpty_iff] at hl
      simp [hl]
  · intro fn rows logs h
    rcases hl : (db.filter (isDueApproved today)).isEmpty with hf | ht
    · rw [brdata_export_nonempty db getItem today user hl] at h
      obtain ⟨hfn, hrows, hlogs⟩ :
          fn = "brdata_export_" ++ toString today ++ ".csv" ∧
          rows = (db.filter (isDueApproved today)).map (exportRowOf getItem) ∧
          logs = (db.filter (isDueApproved today)).map
            (exportLogOf getItem
              ("brdata_export_" ++ toString today ++ ".csv") user) := by
        have := Option.some_inj.mp h
        exact ⟨congrArg Prod.fst this.symm,
          congrArg (fun x => x.2.1) this.symm,
          congrArg (fun x => x.2.2) this.symm⟩
      subst hfn
      refine ⟨rfl, hrows, hlogs, by rw [hrows, List.length_map],
        by rw [hlogs, List.length_map], ?_⟩
      intro l hl2
      rw [hlogs] at hl2
      obtain ⟨c, -, rfl⟩ := List.mem_map.mp hl2
      exact ⟨rfl, rfl, rfl⟩
    · simp only [brdata_export, hl, if_true] at h
      exact absurd h (by simp)

/-- C7 witness: a concrete database with one due APPROVED change, one
future-dated APPROVED change, and one PENDING change. -/
def c7future : PendingCostChange :=
  { sampleApproved with id := 8, effective_date := 20 }

/-- The concrete export database for the C7 witness. -/
def c7db : List PendingCostChange := [sampleApproved, c7future, samplePending]

/-- An item store for the C7 witness. -/
def c7items (_ : Nat) : Item := sampleItem

/-- C7 witness: instantiating the export theorem at the concrete database. -/
theorem brdata_export_behavior_w :
    (∀ c ∈ c7db, c ∈ c7db.filter (isDueApproved 10) ↔
      c.status = Status.approved ∧ c.effective_date ≤ 10) ∧
    ((brdata_export c7db c7items 10 "buyer").1 = none ↔
      c7db.filter (isDueApproved 10) = []) ∧
    (brdata_export c7db c7items 10 "buyer").2 = c7db ∧
    (∀ fn rows logs,
      (brdata_export c7db c7items 10 "buyer").1 = some (fn, rows, logs) →
      fn = "brdata_export_" ++ toString (10 : ℤ) ++ ".csv" ∧
      rows = (c7db.filter (isDueApproved 10)).map (exportRowOf c7items) ∧
      logs = (c7db.filter (isDueApproved 10)).map
        (exportLogOf c7items fn "buyer") ∧
      rows.length = (c7db.filter (isDueApproved 10)).length ∧
      logs.length = (c7db.filter (isDueApproved 10)).length ∧
      ∀ l ∈ logs, l.export_status = "SENT" ∧ l.export_file = some fn ∧
        l.exported_by = some "buyer") ∧
    brdata_export c7db c7items 10 "buyer" =
      brdata_export (brdata_export c7db c7items 10 "buyer").2 c7items 10
        "buyer" :=
  brdata_export_behavior c7db c7items 10 "buyer"

-- ============================================================
-- Margin-basis selection on submit
-- ============================================================

/-- An item whose margin is defined and exactly zero: retail $2.00 equals the
unit cost $2.00 (case_pack 1, case_cost $2.00, no allowance). -/
def c9item : Item :=
  { id := 9
    vendor_code := "FRITO"
    upc := "200000000000"
    brdata_item_no := none
    description := "zero margin item"
    case_pack := 1
    case_cost := 2
    allowance := 0
    retail_price := some 2
    last_cost_change := none
    last_price_change := none }

/-- The suggested-retail column of each record of a database. -/
def suggestedRetails (db : List PendingCostChange) : List (Option ℚ) :=
  db.map PendingCostChange.suggested_retail

/-- C9 counterexample: the claim says the margin basis is the item's current
margin whenever it is defined, including a defined margin of exactly zero.
But `float(item.margin) if item.margin else ...` tests truthiness, so a zero
margin falls back to the vendor's default.  For this item (margin defined and
0) and new unit cost $3.00, the claimed basis 0 would make the suggestion
undefined, yet the code stores $4.18 — the suggestion at the vendor's default
margin 0.28. -/
theorem zero_margin_uses_vendor_default :
    c9item.margin = some 0 ∧
    suggest_retail 3 0 = none ∧
    Except.map suggestedRetails
      (cost_change_entry_post [] c9item sampleVendor 3 none 10 none "n" "u") =
      Except.ok [some (209/50)] ∧
    suggest_retail 3 sampleVendor.target_margin = some (209/50) := by
  have hm : c9item.margin = some 0 := by
    simp only [Item.margin, Item.unit_cost, Item.net_case_cost, c9item]
    norm_num
  have hs : suggest_retail 3 sampleVendor.target_margin = some (209/50) := by
    simp only [sampleVendor]
    unfold suggest_retail
    norm_num
  refine ⟨hm, by simp [suggest_retail], ?_, hs⟩
  obtain ⟨c, hpost, -, -, -, -, -, -, hsg, -, -, -, -, -, -, -⟩ :=
    cost_change_entry_post_creates [] c9item sampleVendor 3 none 10 none "n"
      "u" (by decide) (by simp)
  rw [hpost]
  have hb : marginBasis c9item sampleVendor = sampleVendor.target_margin := by
    unfold marginBasis
    rw [hm]
    norm_num
  have harg : ((3 : ℚ) - (none : Option ℚ).getD 0) / ((c9item.case_pack : ℤ) : ℚ) = 3 := by
    simp [c9item]
  rw [hb, harg] at hsg
  simp only [Except.map, suggestedRetails, List.map_cons, List.nil_append,
    List.map_nil, hsg, hs]

/-- C9 (amended): on submit, the suggested retail is
`suggest_retail(new_unit_cost, basis)` with
`new_unit_cost = (new_case_cost - new_allowance) / case_pack`; the basis is
the item's current margin when it is defined and nonzero, and the vendor's
default target margin when the margin is undefined or exactly zero;
`approved_retail` is the buyer's override when one is provided, else the
suggested retail. -/
theorem submit_margin_basis_rule (db : List PendingCostChange) (item : Item)
    (vendor : Vendor) (ncc : ℚ) (na : Option ℚ) (e : ℤ) (ar : Option ℚ)
    (notes user : String) (hcp : item.case_pack ≠ 0)
    (h0 : ∀ a ∈ db, isPendingFor item.id a = false) :
    ∃ c, cost_change_entry_post db item vendor ncc na e ar notes user =
        Except.ok (db ++ [c]) ∧
      (∀ m, item.margin = some m → m ≠ 0 →
        c.suggested_retail =
          suggest_retail ((ncc - na.getD 0) / (item.case_pack : ℚ)) m) ∧
      (item.margin = some 0 →
        c.suggested_retail =
          suggest_retail ((ncc - na.getD 0) / (item.case_pack : ℚ))
            vendor.target_margin) ∧
      (item.margin = none →
        c.suggested_retail =
          suggest_retail ((ncc - na.getD 0) / (item.case_pack : ℚ))
            vendor.target_margin) ∧
      (ar = none → c.approved_retail = c.suggested_retail) ∧
      (∀ v, ar = some v → c.approved_retail = some v) := by
  obtain ⟨c, hpost, -, -, -, -, -, -, hsg, har, -, -, -, -, -, -⟩ :=
    cost_change_entry_post_creates db item vendor ncc na e ar notes user hcp h0
  refine ⟨c, hpost, ?_, ?_, ?_, ?_, ?_⟩
  · intro m hm hm0
    rw [hsg]
    simp [marginBasis, hm, hm0]
  · intro hm
    rw [hsg]
    simp [marginBasis, hm]
  · intro hm
    rw [hsg]
    simp [marginBasis, hm]
  · intro hnone
    rw [hnone] at har
    exact har
  · intro v hv
    rw [hv] at har
    exact har

/-- C9 witness: instantiating the amended submit rule on the zero-margin item
and then on the sample item (margin defined, nonzero). -/
theorem submit_margin_basis_rule_w :
    ∃ c, cost_change_entry_post [] c9item sampleVendor 3 none 10 none "n"
        "u" = Except.ok ([] ++ [c]) ∧
      (∀ m, c9item.margin = some m → m ≠ 0 →
        c.suggested_retail =
          suggest_retail ((3 - (none : Option ℚ).getD 0) /
            (c9item.case_pack : ℚ)) m) ∧
      (c9item.margin = some 0 →
        c.suggested_retail =
          suggest_retail ((3 - (none : Option ℚ).getD 0) /
            (c9item.case_pack : ℚ)) sampleVendor.target_margin) ∧
      (c9item.margin = none →
        c.suggested_retail =
          suggest_retail ((3 - (none : Option ℚ).getD 0) /
            (c9item.case_pack : ℚ)) sampleVendor.target_margin) ∧
      ((none : Option ℚ) = none → c.approved_retail = c.suggested_retail) ∧
      (∀ v, (none : Option ℚ) = some v → c.approved_retail = some v) :=
  submit_margin_basis_rule [] c9item sampleVendor 3 none 10 none "n" "u"
    (by decide) (by simp)

end DSD
